import Mathlib

/-!
Shallow embedding of the register file (`src/cpu.rs`) and banked working
ram (`src/memory.rs`) of the gameboy emulator core, with proofs of the
specified properties.

`U8Pair` in the source is a `repr(C)` union of `pair : [u8; 2]` and
`whole : u16`; the high/low byte accessors are selected by
`cfg(target_endian)`.  We embed the raw storage as the two bytes
`pair[0]`, `pair[1]`, and parametrise every view by the host byte order,
so that platform independence is a theorem quantified over `Endian`.
-/

namespace Gameboy

/-- Host byte order, the `cfg(target_endian = "little" | "big")` distinction. -/
inductive Endian where
  | little
  | big
  deriving DecidableEq, Fintype

/-- Raw storage of the `U8Pair` union: the two bytes `pair[0]` and `pair[1]`.
Each byte is a `Nat` kept below 256 by every writer. -/
structure U8Pair where
  b0 : Nat
  b1 : Nat
  deriving DecidableEq

/-- Well-formedness: both stored bytes are in `u8` range. -/
def U8Pair.wf (p : U8Pair) : Prop := p.b0 < 256 ∧ p.b1 < 256

/-- Reading the `whole : u16` member of the union: the two bytes
reinterpreted as a `u16` in the host byte order. -/
def U8Pair.as_u16 (en : Endian) (p : U8Pair) : Nat :=
  match en with
  | .little => p.b0 + 256 * p.b1
  | .big => p.b1 + 256 * p.b0

/-- `U8Pair::from_u16`: build the union from a `u16` value; the stored
bytes are the host-byte-order representation of `value % 2^16`. -/
def U8Pair.from_u16 (en : Endian) (value : Nat) : U8Pair :=
  match en with
  | .little => ⟨value % 256, value / 256 % 256⟩
  | .big => ⟨value / 256 % 256, value % 256⟩

/-- Writing through the `&mut u16` returned by `U8Pair::as_u16`:
replaces the whole storage. -/
def U8Pair.set_u16 (en : Endian) (_p : U8Pair) (value : Nat) : U8Pair :=
  U8Pair.from_u16 en value

/-- Reading through `U8Pair::as_hi`: `pair[1]` on little-endian hosts,
`pair[0]` on big-endian hosts, as in the two `cfg(target_endian)` impls. -/
def U8Pair.as_hi (en : Endian) (p : U8Pair) : Nat :=
  match en with
  | .little => p.b1
  | .big => p.b0

/-- Reading through `U8Pair::as_lo`: `pair[0]` on little-endian hosts,
`pair[1]` on big-endian hosts. -/
def U8Pair.as_lo (en : Endian) (p : U8Pair) : Nat :=
  match en with
  | .little => p.b0
  | .big => p.b1

/-- Writing a `u8` through the `&mut u8` returned by `U8Pair::as_hi`. -/
def U8Pair.set_hi (en : Endian) (p : U8Pair) (v : Nat) : U8Pair :=
  match en with
  | .little => { p with b1 := v % 256 }
  | .big => { p with b0 := v % 256 }

/-- Writing a `u8` through the `&mut u8` returned by `U8Pair::as_lo`. -/
def U8Pair.set_lo (en : Endian) (p : U8Pair) (v : Nat) : U8Pair :=
  match en with
  | .little => { p with b0 := v % 256 }
  | .big => { p with b1 := v % 256 }

/-- Flag bits of `cpu.rs`: `Z = 0x80`, `N = 0x40`, `H = 0x20`, `C = 0x10`. -/
inductive Flag where
  | Z
  | N
  | H
  | C
  deriving DecidableEq, Fintype

/-- The discriminant of the `repr(u8)` enum `Flag`. -/
def Flag.val : Flag → Nat
  | .Z => 0x80
  | .N => 0x40
  | .H => 0x20
  | .C => 0x10

/-- The `Registers` struct: four dual-view pairs and two plain `u16`
registers. -/
structure Registers where
  af : U8Pair
  bc : U8Pair
  de : U8Pair
  hl : U8Pair
  sp : Nat
  pc : Nat
  deriving DecidableEq

/-- Reading `Registers::a`, the high byte of `af`. -/
def Registers.a (en : Endian) (r : Registers) : Nat := r.af.as_hi en

/-- Reading `Registers::b`, the high byte of `bc`. -/
def Registers.b (en : Endian) (r : Registers) : Nat := r.bc.as_hi en

/-- Reading `Registers::c`, the low byte of `bc`. -/
def Registers.c (en : Endian) (r : Registers) : Nat := r.bc.as_lo en

/-- Reading `Registers::d`, the high byte of `de`. -/
def Registers.d (en : Endian) (r : Registers) : Nat := r.de.as_hi en

/-- Reading `Registers::e`, the low byte of `de`. -/
def Registers.e (en : Endian) (r : Registers) : Nat := r.de.as_lo en

/-- Reading `Registers::h`, the high byte of `hl`. -/
def Registers.h (en : Endian) (r : Registers) : Nat := r.hl.as_hi en

/-- Reading `Registers::l`, the low byte of `hl`. -/
def Registers.l (en : Endian) (r : Registers) : Nat := r.hl.as_lo en

/-- Reading the `u16` view `Registers::bc`. -/
def Registers.bc16 (en : Endian) (r : Registers) : Nat := r.bc.as_u16 en

/-- Reading the `u16` view `Registers::de`. -/
def Registers.de16 (en : Endian) (r : Registers) : Nat := r.de.as_u16 en

/-- Reading the `u16` view `Registers::hl`. -/
def Registers.hl16 (en : Endian) (r : Registers) : Nat := r.hl.as_u16 en

/-- Writing through the `&mut u8` returned by `Registers::b`. -/
def Registers.set_b (en : Endian) (r : Registers) (v : Nat) : Registers :=
  { r with bc := r.bc.set_hi en v }

/-- Writing through the `&mut u8` returned by `Registers::c`. -/
def Registers.set_c (en : Endian) (r : Registers) (v : Nat) : Registers :=
  { r with bc := r.bc.set_lo en v }

/-- Writing through the `&mut u8` returned by `Registers::d`. -/
def Registers.set_d (en : Endian) (r : Registers) (v : Nat) : Registers :=
  { r with de := r.de.set_hi en v }

/-- Writing through the `&mut u8` returned by `Registers::e`. -/
def Registers.set_e (en : Endian) (r : Registers) (v : Nat) : Registers :=
  { r with de := r.de.set_lo en v }

/-- Writing through the `&mut u8` returned by `Registers::h`. -/
def Registers.set_h (en : Endian) (r : Registers) (v : Nat) : Registers :=
  { r with hl := r.hl.set_hi en v }

/-- Writing through the `&mut u8` returned by `Registers::l`. -/
def Registers.set_l (en : Endian) (r : Registers) (v : Nat) : Registers :=
  { r with hl := r.hl.set_lo en v }

/-- Writing through the `&mut u16` returned by `Registers::bc`. -/
def Registers.set_bc16 (en : Endian) (r : Registers) (v : Nat) : Registers :=
  { r with bc := r.bc.set_u16 en v }

/-- Writing through the `&mut u16` returned by `Registers::de`. -/
def Registers.set_de16 (en : Endian) (r : Registers) (v : Nat) : Registers :=
  { r with de := r.de.set_u16 en v }

/-- Writing through the `&mut u16` returned by `Registers::hl`. -/
def Registers.set_hl16 (en : Endian) (r : Registers) (v : Nat) : Registers :=
  { r with hl := r.hl.set_u16 en v }

/-- `Registers::set_flag`: or the flag's bit into the low byte of `af`
when `value`, and off it (`&= !flag`, with `!` the `u8` complement
`flag ^^^ 255`) when not. -/
def Registers.set_flag (en : Endian) (r : Registers) (f : Flag) (value : Bool) : Registers :=
  if value then
    { r with af := r.af.set_lo en (r.af.as_lo en ||| f.val) }
  else
    { r with af := r.af.set_lo en (r.af.as_lo en &&& (f.val ^^^ 255)) }

/-- `Registers::get_flag`: test whether the flag's bit is set in the low
byte of `af`. -/
def Registers.get_flag (en : Endian) (r : Registers) (f : Flag) : Bool :=
  (r.af.as_lo en &&& f.val) == f.val

/-- Modelled from the spec: `cpu.rs` defines no constructor for
`Registers`; §3 of the spec says the file is created at machine-reset
with all-zero state, so the reset state zeroes every pair, the stack
pointer and the program counter. -/
def Registers.new : Registers :=
  { af := ⟨0, 0⟩, bc := ⟨0, 0⟩, de := ⟨0, 0⟩, hl := ⟨0, 0⟩, sp := 0, pc := 0 }

/-- The four register pairs, for describing the public accessor surface
of `Registers`. -/
inductive PairName where
  | AF
  | BC
  | DE
  | HL
  deriving DecidableEq, Fintype

/-- The three kinds of view a pair can expose. -/
inductive Accessor where
  | highLane
  | lowLane
  | whole
  deriving DecidableEq, Fintype

/-- The public accessors the `impl Registers` block in `cpu.rs` defines
for each pair, transcribed method by method: `a` (high byte of `af`);
`b`, `c`, `bc`; `d`, `e`, `de`; `h`, `l`, `hl`.  No `f` and no `af`
method exists. -/
def exposedAccessors : PairName → List Accessor
  | .AF => [.highLane]
  | .BC => [.highLane, .lowLane, .whole]
  | .DE => [.highLane, .lowLane, .whole]
  | .HL => [.highLane, .lowLane, .whole]

/-- The `Wram` struct of `memory.rs`: `ram : [[u8; 0x1000]; 8]` embedded
as a curried function from bank index and byte offset to the stored
byte, plus the `selected_bank : usize` field. -/
structure Wram where
  ram : Nat → Nat → Nat
  selected_bank : Nat

/-- `Wram::new`: all banks zero-filled, `selected_bank` starts at 1. -/
def Wram.new : Wram :=
  { ram := fun _ _ => 0, selected_bank := 1 }

/-- Checked subtraction, modelling `usize` subtraction whose underflow
is a panic: `none` exactly when the Rust expression would overflow. -/
def checkedSub (a b : Nat) : Option Nat :=
  if b ≤ a then some (a - b) else none

/-- The indexing `self.ram[bank][off]`, whose out-of-bounds branch is a
panic: `none` exactly when either index check fails. -/
def Wram.ramGet (w : Wram) (bank off : Nat) : Option Nat :=
  if bank < 8 then
    if off < 0x1000 then some (w.ram bank off) else none
  else none

/-- Storing one byte into one bank: the state after
`self.ram[bank][off] = value` when both indices are in bounds. -/
def Wram.ramUpdate (w : Wram) (bank off value : Nat) : Wram :=
  { w with ram := fun b o =>
      if b = bank then (if o = off then value else w.ram b o) else w.ram b o }

/-- The assignment `self.ram[bank][off] = value`, with the same bounds
checks as `Wram.ramGet`; on success only that one byte changes. -/
def Wram.ramSet (w : Wram) (bank off value : Nat) : Option Wram :=
  if bank < 8 then
    if off < 0x1000 then some (w.ramUpdate bank off value)
    else none
  else none

/-- `Wram::rb`: the `debug_assert!` on the address range, then the
first half of the window reads bank 0 at `addr - 0xc000` and the second
half reads the selected bank at `addr - 0xd000`.  `none` models a
panic (failed assertion, underflow or out-of-bounds indexing). -/
def Wram.rb (w : Wram) (addr : Nat) : Option Nat :=
  if 0xc000 ≤ addr ∧ addr < 0xe000 then
    if addr < 0xd000 then
      (checkedSub addr 0xc000).bind (fun off => w.ramGet 0 off)
    else
      (checkedSub addr 0xd000).bind (fun off => w.ramGet w.selected_bank off)
  else none

/-- `Wram::wb`: same addressing rule as `Wram.rb`, writing the resolved
byte instead of reading it. -/
def Wram.wb (w : Wram) (addr value : Nat) : Option Wram :=
  if 0xc000 ≤ addr ∧ addr < 0xe000 then
    if addr < 0xd000 then
      (checkedSub addr 0xc000).bind (fun off => w.ramSet 0 off value)
    else
      (checkedSub addr 0xd000).bind (fun off => w.ramSet w.selected_bank off value)
  else none

/-- `Wram::read_svbk`: `((selected_bank & 0b111) as u8) | !0b111`, with
the `u8` cast as `% 256` and the `u8` complement of `0b111` being 248. -/
def Wram.read_svbk (w : Wram) : Nat :=
  ((w.selected_bank &&& 7) % 256) ||| 248

/-- `Wram::write_svbk`: keep the low 3 bits of the written byte; if
that index is 0 replace it by 1. -/
def Wram.write_svbk (w : Wram) (value : Nat) : Wram :=
  let sb := value &&& 7
  { w with selected_bank := if sb = 0 then 1 else sb }

/-- The public operations of `Wram`, for stating reachability. -/
inductive WramOp where
  | rb (addr : Nat)
  | wb (addr value : Nat)
  | read_svbk
  | write_svbk (value : Nat)

/-- One public operation applied to a `Wram` state.  Reads leave the
state unchanged; a `wb` that would panic leaves no state at all, so it
contributes the unchanged state to reachability. -/
def Wram.step (w : Wram) : WramOp → Wram
  | .rb _ => w
  | .read_svbk => w
  | .wb addr value => (w.wb addr value).getD w
  | .write_svbk value => w.write_svbk value

/-- The state after a sequence of public operations. -/
def Wram.run (w : Wram) (ops : List WramOp) : Wram :=
  ops.foldl Wram.step w

/-! ## Helper lemmas -/

theorem land_255_eq_mod (v : Nat) : v &&& 255 = v % 256 := by
  have h := Nat.and_pow_two_sub_one_eq_mod v 8
  norm_num at h
  exact h

theorem shl8_lor (hi lo : Nat) (hlo : lo < 256) : (hi <<< 8) ||| lo = 256 * hi + lo := by
  have hlo2 : lo < 2 ^ 8 := by simpa using hlo
  have h := Nat.mul_add_lt_is_or hlo2 hi
  rw [Nat.shiftLeft_eq, Nat.mul_comm hi (2 ^ 8), ← h]

theorem svbk_bits : ∀ x < 8, ((x % 256) ||| 248) &&& 7 = x ∧ ((x % 256) ||| 248) >>> 3 = 31 := by
  decide

/-- All aliasing facts about one `U8Pair`: lane reads after a whole
write, whole reads after lane writes in either order, and the standing
`whole = high * 256 + low` relation, for both byte orders. -/
theorem pair_alias_facts (en : Endian) (p q : U8Pair) (v hi lo : Nat)
    (hv : v < 65536) (hhi : hi < 256) (hlo : lo < 256)
    (hq0 : q.b0 < 256) (hq1 : q.b1 < 256) :
    (p.set_u16 en v).as_hi en = v >>> 8 ∧
    (p.set_u16 en v).as_lo en = v &&& 255 ∧
    ((p.set_hi en hi).set_lo en lo).as_u16 en = (hi <<< 8) ||| lo ∧
    ((p.set_lo en lo).set_hi en hi).as_u16 en = (hi <<< 8) ||| lo ∧
    q.as_u16 en = (q.as_hi en <<< 8) ||| q.as_lo en := by
  have hsr : v >>> 8 = v / 256 := by
    rw [Nat.shiftRight_eq_div_pow]
  have h255 : v &&& 255 = v % 256 := land_255_eq_mod v
  cases en with
  | little =>
    refine ⟨?_, ?_, ?_, ?_, ?_⟩ <;>
      simp only [U8Pair.set_u16, U8Pair.from_u16, U8Pair.set_hi, U8Pair.set_lo,
        U8Pair.as_hi, U8Pair.as_lo, U8Pair.as_u16, hsr, h255,
        shl8_lor hi lo hlo, shl8_lor q.b1 q.b0 hq0] <;>
      omega
  | big =>
    refine ⟨?_, ?_, ?_, ?_, ?_⟩ <;>
      simp only [U8Pair.set_u16, U8Pair.from_u16, U8Pair.set_hi, U8Pair.set_lo,
        U8Pair.as_hi, U8Pair.as_lo, U8Pair.as_u16, hsr, h255,
        shl8_lor hi lo hlo, shl8_lor q.b0 q.b1 hq1] <;>
      omega

/-! ## Claim theorems -/

/-- Claim C1: for every register pair and all byte orders, writing a
16-bit value through the whole view then reading the lanes yields
`high = v >>> 8` and `low = v &&& 0xFF`; writing high and low bytes
through the lane views in either order yields `whole = (high <<< 8) ||| low`;
and `whole = (high <<< 8) ||| low` holds of every well-formed pair state,
independent of the host byte order `en`. -/
theorem alias_consistency (en : Endian) (p q : U8Pair) (v hi lo : Nat)
    (hv : v < 65536) (hhi : hi < 256) (hlo : lo < 256) (hq : q.wf) :
    (p.set_u16 en v).as_hi en = v >>> 8 ∧
    (p.set_u16 en v).as_lo en = v &&& 255 ∧
    ((p.set_hi en hi).set_lo en lo).as_u16 en = (hi <<< 8) ||| lo ∧
    ((p.set_lo en lo).set_hi en hi).as_u16 en = (hi <<< 8) ||| lo ∧
    q.as_u16 en = (q.as_hi en <<< 8) ||| q.as_lo en :=
  pair_alias_facts en p q v hi lo hv hhi hlo hq.1 hq.2

/-- Witness for `alias_consistency` at the little-endian byte order,
`v = 0xABCD`, `hi = 0x12`, `lo = 0x34` and concrete pairs. -/
theorem alias_consistency_witness :
    (U8Pair.set_u16 .little ⟨1, 2⟩ 0xABCD).as_hi .little = 0xABCD >>> 8 ∧
    (U8Pair.set_u16 .little ⟨1, 2⟩ 0xABCD).as_lo .little = 0xABCD &&& 255 ∧
    ((U8Pair.set_hi .little ⟨1, 2⟩ 0x12).set_lo .little 0x34).as_u16 .little = (0x12 <<< 8) ||| 0x34 ∧
    ((U8Pair.set_lo .little ⟨1, 2⟩ 0x34).set_hi .little 0x12).as_u16 .little = (0x12 <<< 8) ||| 0x34 ∧
    (U8Pair.as_u16 .little ⟨3, 4⟩) = ((U8Pair.as_hi .little ⟨3, 4⟩) <<< 8) ||| U8Pair.as_lo .little ⟨3, 4⟩ :=
  alias_consistency .little ⟨1, 2⟩ ⟨3, 4⟩ 0xABCD 0x12 0x34 (by decide) (by decide)
    (by decide) (by exact ⟨by decide, by decide⟩)

/-- Claim C2: `write_svbk` keeps only the low 3 bits of its argument,
coercing index 0 to 1 and storing 1..7 directly; `read_svbk` returns the
bank index in its low 3 bits with the upper five bits all 1; writing 0
then reading gives the same byte as writing 1 then reading; and writing
`0b11110101` then reading reflects index 5 (the byte read is 253). -/
theorem control_register (w : Wram) (value : Nat) :
    ((w.write_svbk value).selected_bank = if value &&& 7 = 0 then 1 else value &&& 7) ∧
    (1 ≤ (w.write_svbk value).selected_bank ∧ (w.write_svbk value).selected_bank ≤ 7) ∧
    (w.read_svbk &&& 7 = w.selected_bank &&& 7) ∧
    (w.read_svbk >>> 3 = 31) ∧
    ((w.write_svbk 0).read_svbk = (w.write_svbk 1).read_svbk) ∧
    ((w.write_svbk 245).read_svbk &&& 7 = 5 ∧ (w.write_svbk 245).read_svbk = 253) := by
  have hx : w.selected_bank &&& 7 < 8 :=
    Nat.lt_of_le_of_lt Nat.and_le_right (by norm_num)
  have hb := svbk_bits (w.selected_bank &&& 7) hx
  have h7 : value &&& 7 ≤ 7 := Nat.and_le_right
  refine ⟨rfl, ⟨?_, ?_⟩, hb.1, hb.2, ?_, ?_, ?_⟩
  · show 1 ≤ (if value &&& 7 = 0 then 1 else value &&& 7)
    split <;> omega
  · show (if value &&& 7 = 0 then 1 else value &&& 7) ≤ 7
    split <;> omega
  · rfl
  · simp only [Wram.write_svbk, Wram.read_svbk]
    decide
  · simp only [Wram.write_svbk, Wram.read_svbk]
    decide

set_option maxRecDepth 8192 in
/-- The four flag-bit identities on a `u8` flag byte: setting a flag's
bit makes its test true, clearing it makes its test false, and either
mutation leaves the test of every other flag unchanged. -/
theorem flag_bit_facts : ∀ lo < 256, ∀ f g : Flag,
    ((((lo ||| f.val) % 256) &&& f.val) == f.val) = true ∧
    ((((lo &&& (f.val ^^^ 255)) % 256) &&& f.val) == f.val) = false ∧
    (f ≠ g →
      (((((lo ||| f.val) % 256) &&& g.val) == g.val) = ((lo &&& g.val) == g.val) ∧
       ((((lo &&& (f.val ^^^ 255)) % 256) &&& g.val) == g.val) = ((lo &&& g.val) == g.val))) := by
  decide

/-- Claim C5: for every flag, setting it makes `get_flag` true, clearing
it makes `get_flag` false, and `set_flag` leaves the other three flags,
the `a` register (high lane of `af`) and every other register file field
unchanged, mutating only the low lane of `af`; `get_flag` is a pure
function of the state. -/
theorem flag_independence (en : Endian) (r : Registers) (f : Flag) (value : Bool)
    (hwf : r.af.wf) :
    ((r.set_flag en f true).get_flag en f = true) ∧
    ((r.set_flag en f false).get_flag en f = false) ∧
    (∀ g : Flag, f ≠ g → (r.set_flag en f value).get_flag en g = r.get_flag en g) ∧
    ((r.set_flag en f value).af.as_hi en = r.af.as_hi en) ∧
    ((r.set_flag en f value).bc = r.bc) ∧
    ((r.set_flag en f value).de = r.de) ∧
    ((r.set_flag en f value).hl = r.hl) ∧
    ((r.set_flag en f value).sp = r.sp) ∧
    ((r.set_flag en f value).pc = r.pc) := by
  obtain ⟨h0, h1⟩ := hwf
  refine ⟨?_, ?_, ?_, ?_, ?_, ?_, ?_, ?_, ?_⟩
  · cases en with
    | little => exact (flag_bit_facts r.af.b0 h0 f f).1
    | big => exact (flag_bit_facts r.af.b1 h1 f f).1
  · cases en with
    | little => exact (flag_bit_facts r.af.b0 h0 f f).2.1
    | big => exact (flag_bit_facts r.af.b1 h1 f f).2.1
  · intro g hfg
    cases value with
    | true =>
      cases en with
      | little => exact ((flag_bit_facts r.af.b0 h0 f g).2.2 hfg).1
      | big => exact ((flag_bit_facts r.af.b1 h1 f g).2.2 hfg).1
    | false =>
      cases en with
      | little => exact ((flag_bit_facts r.af.b0 h0 f g).2.2 hfg).2
      | big => exact ((flag_bit_facts r.af.b1 h1 f g).2.2 hfg).2
  all_goals cases en <;> cases value <;> rfl

/-- Witness for `flag_independence` at the little-endian byte order on
the reset register file, flag `Z`, value `true`. -/
theorem flag_independence_witness :
    ((Registers.new.set_flag .little .Z true).get_flag .little .Z = true) ∧
    ((Registers.new.set_flag .little .Z false).get_flag .little .Z = false) ∧
    (∀ g : Flag, Flag.Z ≠ g →
      (Registers.new.set_flag .little .Z true).get_flag .little g =
        Registers.new.get_flag .little g) ∧
    ((Registers.new.set_flag .little .Z true).af.as_hi .little = Registers.new.af.as_hi .little) ∧
    ((Registers.new.set_flag .little .Z true).bc = Registers.new.bc) ∧
    ((Registers.new.set_flag .little .Z true).de = Registers.new.de) ∧
    ((Registers.new.set_flag .little .Z true).hl = Registers.new.hl) ∧
    ((Registers.new.set_flag .little .Z true).sp = Registers.new.sp) ∧
    ((Registers.new.set_flag .little .Z true).pc = Registers.new.pc) :=
  flag_independence .little Registers.new .Z true ⟨by decide, by decide⟩

/-- Claim C9: the machine-reset register file is all zero: every 8-bit
lane, every 16-bit pair view, the stack pointer and the program counter
read 0, and every flag reads false, on every host byte order. -/
theorem reset_state :
    (∀ en : Endian,
      Registers.new.a en = 0 ∧ Registers.new.b en = 0 ∧ Registers.new.c en = 0 ∧
      Registers.new.d en = 0 ∧ Registers.new.e en = 0 ∧ Registers.new.h en = 0 ∧
      Registers.new.l en = 0 ∧ Registers.new.bc16 en = 0 ∧ Registers.new.de16 en = 0 ∧
      Registers.new.hl16 en = 0 ∧ Registers.new.af.as_u16 en = 0 ∧
      (∀ f : Flag, Registers.new.get_flag en f = false)) ∧
    Registers.new.sp = 0 ∧ Registers.new.pc = 0 := by
  decide

/-- Counterexample to claim C8: the `AF` pair does not expose a low-lane
or a whole-16-bit accessor in `impl Registers` (there is no `f` and no
`af` method), so not every pair exposes the same three accessors. -/
theorem accessor_surface_counterexample :
    Accessor.lowLane ∉ exposedAccessors PairName.AF ∧
    Accessor.whole ∉ exposedAccessors PairName.AF ∧
    ¬ (∀ p : PairName,
        exposedAccessors p = [Accessor.highLane, Accessor.lowLane, Accessor.whole]) := by
  decide

/-- Claim C8 as amended: `BC`, `DE` and `HL` each expose all three
accessors (high lane, low lane, whole) denoting the same storage, with
writes through any one visible through the others; `AF` exposes only its
high-lane accessor `a`, its low lane being reachable only through the
flag operations. -/
theorem accessor_surface_amended (en : Endian) (r : Registers) (v hi lo : Nat)
    (hv : v < 65536) (hhi : hi < 256) (hlo : lo < 256)
    (hbc : r.bc.wf) (hde : r.de.wf) (hhl : r.hl.wf) :
    (exposedAccessors .AF = [.highLane] ∧
     exposedAccessors .BC = [.highLane, .lowLane, .whole] ∧
     exposedAccessors .DE = [.highLane, .lowLane, .whole] ∧
     exposedAccessors .HL = [.highLane, .lowLane, .whole]) ∧
    (r.bc16 en = ((r.b en) <<< 8) ||| r.c en ∧
     r.de16 en = ((r.d en) <<< 8) ||| r.e en ∧
     r.hl16 en = ((r.h en) <<< 8) ||| r.l en) ∧
    ((r.set_bc16 en v).b en = v >>> 8 ∧ (r.set_bc16 en v).c en = v &&& 255 ∧
     (r.set_de16 en v).d en = v >>> 8 ∧ (r.set_de16 en v).e en = v &&& 255 ∧
     (r.set_hl16 en v).h en = v >>> 8 ∧ (r.set_hl16 en v).l en = v &&& 255) ∧
    (((r.set_b en hi).set_c en lo).bc16 en = (hi <<< 8) ||| lo ∧
     ((r.set_d en hi).set_e en lo).de16 en = (hi <<< 8) ||| lo ∧
     ((r.set_h en hi).set_l en lo).hl16 en = (hi <<< 8) ||| lo) := by
  obtain ⟨hbc0, hbc1⟩ := hbc
  obtain ⟨hde0, hde1⟩ := hde
  obtain ⟨hhl0, hhl1⟩ := hhl
  have hBC := pair_alias_facts en r.bc r.bc v hi lo hv hhi hlo hbc0 hbc1
  have hDE := pair_alias_facts en r.de r.de v hi lo hv hhi hlo hde0 hde1
  have hHL := pair_alias_facts en r.hl r.hl v hi lo hv hhi hlo hhl0 hhl1
  exact ⟨⟨rfl, rfl, rfl, rfl⟩,
    ⟨hBC.2.2.2.2, hDE.2.2.2.2, hHL.2.2.2.2⟩,
    ⟨hBC.1, hBC.2.1, hDE.1, hDE.2.1, hHL.1, hHL.2.1⟩,
    ⟨hBC.2.2.1, hDE.2.2.1, hHL.2.2.1⟩⟩

/-- Witness for `accessor_surface_amended` at the little-endian byte
order on the reset register file, `v = 0x1234`, `hi = 0xAB`, `lo = 0xCD`. -/
theorem accessor_surface_amended_witness :
    (exposedAccessors .AF = [.highLane] ∧
     exposedAccessors .BC = [.highLane, .lowLane, .whole] ∧
     exposedAccessors .DE = [.highLane, .lowLane, .whole] ∧
     exposedAccessors .HL = [.highLane, .lowLane, .whole]) ∧
    (Registers.new.bc16 .little = ((Registers.new.b .little) <<< 8) ||| Registers.new.c .little ∧
     Registers.new.de16 .little = ((Registers.new.d .little) <<< 8) ||| Registers.new.e .little ∧
     Registers.new.hl16 .little = ((Registers.new.h .little) <<< 8) ||| Registers.new.l .little) ∧
    ((Registers.new.set_bc16 .little 0x1234).b .little = 0x1234 >>> 8 ∧
     (Registers.new.set_bc16 .little 0x1234).c .little = 0x1234 &&& 255 ∧
     (Registers.new.set_de16 .little 0x1234).d .little = 0x1234 >>> 8 ∧
     (Registers.new.set_de16 .little 0x1234).e .little = 0x1234 &&& 255 ∧
     (Registers.new.set_hl16 .little 0x1234).h .little = 0x1234 >>> 8 ∧
     (Registers.new.set_hl16 .little 0x1234).l .little = 0x1234 &&& 255) ∧
    (((Registers.new.set_b .little 0xAB).set_c .little 0xCD).bc16 .little = (0xAB <<< 8) ||| 0xCD ∧
     ((Registers.new.set_d .little 0xAB).set_e .little 0xCD).de16 .little = (0xAB <<< 8) ||| 0xCD ∧
     ((Registers.new.set_h .little 0xAB).set_l .little 0xCD).hl16 .little = (0xAB <<< 8) ||| 0xCD) :=
  accessor_surface_amended .little Registers.new 0x1234 0xAB 0xCD (by decide) (by decide)
    (by decide) ⟨by decide, by decide⟩ ⟨by decide, by decide⟩ ⟨by decide, by decide⟩

/-- Reads in the fixed first half of the window resolve to bank 0. -/
theorem rb_lo_eq (w : Wram) (addr : Nat) (h1 : 0xc000 ≤ addr) (hd : addr < 0xd000) :
    w.rb addr = some (w.ram 0 (addr - 0xc000)) := by
  unfold Wram.rb checkedSub Wram.ramGet
  rw [if_pos ⟨h1, show addr < 0xe000 by omega⟩, if_pos hd, if_pos h1, Option.some_bind,
    if_pos (show (0 : Nat) < 8 by norm_num), if_pos (show addr - 0xc000 < 0x1000 by omega)]

/-- Reads in the switchable second half resolve to the selected bank. -/
theorem rb_hi_eq (w : Wram) (addr : Nat) (hd : 0xd000 ≤ addr) (h2 : addr < 0xe000)
    (hb : w.selected_bank < 8) :
    w.rb addr = some (w.ram w.selected_bank (addr - 0xd000)) := by
  unfold Wram.rb checkedSub Wram.ramGet
  rw [if_pos ⟨show 0xc000 ≤ addr by omega, h2⟩, if_neg (show ¬ addr < 0xd000 by omega),
    if_pos hd, Option.some_bind, if_pos hb, if_pos (show addr - 0xd000 < 0x1000 by omega)]

/-- Writes in the fixed first half succeed and update bank 0. -/
theorem wb_lo_eq (w : Wram) (addr value : Nat) (h1 : 0xc000 ≤ addr) (hd : addr < 0xd000) :
    w.wb addr value = some (w.ramUpdate 0 (addr - 0xc000) value) := by
  unfold Wram.wb checkedSub Wram.ramSet
  rw [if_pos ⟨h1, show addr < 0xe000 by omega⟩, if_pos hd, if_pos h1, Option.some_bind,
    if_pos (show (0 : Nat) < 8 by norm_num), if_pos (show addr - 0xc000 < 0x1000 by omega)]

/-- Writes in the switchable second half succeed and update the
selected bank. -/
theorem wb_hi_eq (w : Wram) (addr value : Nat) (hd : 0xd000 ≤ addr) (h2 : addr < 0xe000)
    (hb : w.selected_bank < 8) :
    w.wb addr value = some (w.ramUpdate w.selected_bank (addr - 0xd000) value) := by
  unfold Wram.wb checkedSub Wram.ramSet
  rw [if_pos ⟨show 0xc000 ≤ addr by omega, h2⟩, if_neg (show ¬ addr < 0xd000 by omega),
    if_pos hd, Option.some_bind, if_pos hb, if_pos (show addr - 0xd000 < 0x1000 by omega)]

/-- `ramUpdate` does not move the bank-select index. -/
theorem ramUpdate_bank (w : Wram) (bank off value : Nat) :
    (w.ramUpdate bank off value).selected_bank = w.selected_bank := rfl

/-- `ramUpdate` stores the written byte at the written location. -/
theorem ramUpdate_hit (w : Wram) (bank off value : Nat) :
    (w.ramUpdate bank off value).ram bank off = value := by
  show (if bank = bank then (if off = off then value else w.ram bank off)
        else w.ram bank off) = value
  rw [if_pos rfl, if_pos rfl]

/-- `ramUpdate` leaves every other location unchanged. -/
theorem ramUpdate_miss (w : Wram) (bank off value b o : Nat)
    (h : b ≠ bank ∨ o ≠ off) :
    (w.ramUpdate bank off value).ram b o = w.ram b o := by
  show (if b = bank then (if o = off then value else w.ram b o)
        else w.ram b o) = w.ram b o
  rcases h with h | h
  · rw [if_neg h]
  · by_cases hb : b = bank
    · rw [if_pos hb, if_neg h]
    · rw [if_neg hb]

/-- `write_svbk` does not touch the stored bytes. -/
theorem write_svbk_ram (u : Wram) (c : Nat) : (u.write_svbk c).ram = u.ram := rfl

/-- A `wb`, whether it succeeds or panics, never moves `selected_bank`. -/
theorem wb_getD_bank (w : Wram) (addr value : Nat) :
    ((w.wb addr value).getD w).selected_bank = w.selected_bank := by
  by_cases hr : 0xc000 ≤ addr ∧ addr < 0xe000
  · obtain ⟨h1, h2⟩ := hr
    by_cases hd : addr < 0xd000
    · rw [wb_lo_eq w addr value h1 hd]
      rfl
    · by_cases hb : w.selected_bank < 8
      · rw [wb_hi_eq w addr value (by omega) h2 hb]
        rfl
      · have hnone : w.wb addr value = none := by
          unfold Wram.wb checkedSub Wram.ramSet
          rw [if_pos ⟨h1, h2⟩, if_neg hd, if_pos (show 0xd000 ≤ addr by omega),
            Option.some_bind, if_neg hb]
        rw [hnone]
        rfl
  · have hnone : w.wb addr value = none := by
      unfold Wram.wb
      rw [if_neg hr]
    rw [hnone]
    rfl

/-- A single public operation keeps `selected_bank` in `[1, 7]`. -/
theorem step_bank_invariant (w : Wram) (op : WramOp)
    (hb1 : 1 ≤ w.selected_bank) (hb7 : w.selected_bank ≤ 7) :
    1 ≤ (w.step op).selected_bank ∧ (w.step op).selected_bank ≤ 7 := by
  cases op with
  | rb addr => exact ⟨hb1, hb7⟩
  | read_svbk => exact ⟨hb1, hb7⟩
  | wb addr value =>
    show 1 ≤ ((w.wb addr value).getD w).selected_bank ∧
      ((w.wb addr value).getD w).selected_bank ≤ 7
    rw [wb_getD_bank w addr value]
    exact ⟨hb1, hb7⟩
  | write_svbk value =>
    have h7 : value &&& 7 ≤ 7 := Nat.and_le_right
    show 1 ≤ (if value &&& 7 = 0 then 1 else value &&& 7) ∧
      (if value &&& 7 = 0 then 1 else value &&& 7) ≤ 7
    constructor <;> split <;> omega

/-- Any run of public operations keeps `selected_bank` in `[1, 7]`. -/
theorem run_bank_invariant (ops : List WramOp) (w : Wram)
    (hb1 : 1 ≤ w.selected_bank) (hb7 : w.selected_bank ≤ 7) :
    1 ≤ (w.run ops).selected_bank ∧ (w.run ops).selected_bank ≤ 7 := by
  induction ops generalizing w with
  | nil => exact ⟨hb1, hb7⟩
  | cons op tl ih =>
    have hs := step_bank_invariant w op hb1 hb7
    exact ih (w.step op) hs.1 hs.2

/-- Claim C3: in every state reachable from construction by any sequence
of public operations, `selected_bank` lies in `[1, 7]` — never 0 — and
every read in the switchable half resolves to `ram[selected_bank]`. -/
theorem reachable_bank_invariant (ops : List WramOp) :
    1 ≤ (Wram.new.run ops).selected_bank ∧
    (Wram.new.run ops).selected_bank ≤ 7 ∧
    ∀ addr, 0xd000 ≤ addr → addr < 0xe000 →
      (Wram.new.run ops).rb addr =
        some ((Wram.new.run ops).ram (Wram.new.run ops).selected_bank (addr - 0xd000)) := by
  have h := run_bank_invariant ops Wram.new (Nat.le_refl 1) (by decide)
  refine ⟨h.1, h.2, ?_⟩
  intro addr hd1 hd2
  exact rb_hi_eq (Wram.new.run ops) addr hd1 hd2 (by omega)

/-- Witness for `reachable_bank_invariant` on the run that selects bank
3 then writes into the switchable half, read back at `0xD010`. -/
theorem reachable_bank_invariant_witness :
    1 ≤ (Wram.new.run [WramOp.write_svbk 3, WramOp.wb 0xD010 7]).selected_bank ∧
    (Wram.new.run [WramOp.write_svbk 3, WramOp.wb 0xD010 7]).selected_bank ≤ 7 ∧
    (Wram.new.run [WramOp.write_svbk 3, WramOp.wb 0xD010 7]).rb 0xD010 =
      some ((Wram.new.run [WramOp.write_svbk 3, WramOp.wb 0xD010 7]).ram
        (Wram.new.run [WramOp.write_svbk 3, WramOp.wb 0xD010 7]).selected_bank
        (0xD010 - 0xd000)) :=
  ⟨(reachable_bank_invariant [WramOp.write_svbk 3, WramOp.wb 0xD010 7]).1,
   (reachable_bank_invariant [WramOp.write_svbk 3, WramOp.wb 0xD010 7]).2.1,
   (reachable_bank_invariant [WramOp.write_svbk 3, WramOp.wb 0xD010 7]).2.2 0xD010
     (by decide) (by decide)⟩

/-- Claim C4: in-range reads return `ram[0][addr - 0xC000]` below
`0xD000` and `ram[selected_bank][addr - 0xD000]` above, with no side
effect, and in-range writes succeed and mutate exactly that resolved
byte, leaving every other byte and `selected_bank` unchanged. -/
theorem addressing (w : Wram) (addr value : Nat)
    (h1 : 0xc000 ≤ addr) (h2 : addr < 0xe000) (hb : w.selected_bank < 8) :
    (w.rb addr = some (if addr < 0xd000 then w.ram 0 (addr - 0xc000)
                       else w.ram w.selected_bank (addr - 0xd000))) ∧
    (∃ w2, w.wb addr value = some w2 ∧
      w2.selected_bank = w.selected_bank ∧
      w2.ram (if addr < 0xd000 then 0 else w.selected_bank)
             (if addr < 0xd000 then addr - 0xc000 else addr - 0xd000) = value ∧
      ∀ b o, (b ≠ (if addr < 0xd000 then 0 else w.selected_bank) ∨
              o ≠ (if addr < 0xd000 then addr - 0xc000 else addr - 0xd000)) →
        w2.ram b o = w.ram b o) := by
  by_cases hd : addr < 0xd000
  · simp only [if_pos hd]
    exact ⟨rb_lo_eq w addr h1 hd,
      w.ramUpdate 0 (addr - 0xc000) value, wb_lo_eq w addr value h1 hd, rfl,
      ramUpdate_hit w 0 (addr - 0xc000) value,
      fun b o hbo => ramUpdate_miss w 0 (addr - 0xc000) value b o hbo⟩
  · have hd2 : 0xd000 ≤ addr := by omega
    simp only [if_neg hd]
    exact ⟨rb_hi_eq w addr hd2 h2 hb,
      w.ramUpdate w.selected_bank (addr - 0xd000) value, wb_hi_eq w addr value hd2 h2 hb, rfl,
      ramUpdate_hit w w.selected_bank (addr - 0xd000) value,
      fun b o hbo => ramUpdate_miss w w.selected_bank (addr - 0xd000) value b o hbo⟩

/-- Witness for `addressing` on the fresh ram at address `0xC123`,
writing the byte 9. -/
theorem addressing_witness :
    (Wram.new.rb 0xC123 = some (if 0xC123 < 0xd000 then Wram.new.ram 0 (0xC123 - 0xc000)
                                else Wram.new.ram Wram.new.selected_bank (0xC123 - 0xd000))) ∧
    (∃ w2, Wram.new.wb 0xC123 9 = some w2 ∧
      w2.selected_bank = Wram.new.selected_bank ∧
      w2.ram (if 0xC123 < 0xd000 then 0 else Wram.new.selected_bank)
             (if 0xC123 < 0xd000 then 0xC123 - 0xc000 else 0xC123 - 0xd000) = 9 ∧
      ∀ b o, (b ≠ (if 0xC123 < 0xd000 then 0 else Wram.new.selected_bank) ∨
              o ≠ (if 0xC123 < 0xd000 then 0xC123 - 0xc000 else 0xC123 - 0xd000)) →
        w2.ram b o = Wram.new.ram b o) :=
  addressing Wram.new 0xC123 9 (by decide) (by decide) (by decide)

/-- Claim C6: for every in-window address and every selected bank in
`[1, 7]`, writing a byte then reading the same address returns it. -/
theorem bank_roundtrip (w : Wram) (addr x : Nat)
    (h1 : 0xc000 ≤ addr) (h2 : addr < 0xe000)
    (hb1 : 1 ≤ w.selected_bank) (hb7 : w.selected_bank ≤ 7) :
    (w.wb addr x).bind (fun w2 => w2.rb addr) = some x := by
  have hb : w.selected_bank < 8 := by omega
  by_cases hd : addr < 0xd000
  · rw [wb_lo_eq w addr x h1 hd, Option.some_bind,
      rb_lo_eq (w.ramUpdate 0 (addr - 0xc000) x) addr h1 hd,
      ramUpdate_hit w 0 (addr - 0xc000) x]
  · have hd2 : 0xd000 ≤ addr := by omega
    rw [wb_hi_eq w addr x hd2 h2 hb, Option.some_bind,
      rb_hi_eq (w.ramUpdate w.selected_bank (addr - 0xd000) x) addr hd2 h2 hb,
      ramUpdate_bank w w.selected_bank (addr - 0xd000) x,
      ramUpdate_hit w w.selected_bank (addr - 0xd000) x]

/-- Witness for `bank_roundtrip` on the fresh ram at the switchable-half
address `0xD777` with byte 42. -/
theorem bank_roundtrip_witness :
    (Wram.new.wb 0xD777 42).bind (fun w2 => w2.rb 0xD777) = some 42 :=
  bank_roundtrip Wram.new 0xD777 42 (by decide) (by decide) (by decide) (by decide)

/-- Claim C7: a byte written in the fixed first half of the window
survives any `write_svbk`, and `write_svbk` never modifies any stored
memory byte. -/
theorem fixed_region_independence (w : Wram) (addr v c : Nat)
    (h1 : 0xc000 ≤ addr) (h2 : addr < 0xd000) :
    ((w.wb addr v).map (fun w2 => w2.write_svbk c)).bind (fun w3 => w3.rb addr) = some v ∧
    ∀ u : Wram, (u.write_svbk c).ram = u.ram := by
  refine ⟨?_, fun u => rfl⟩
  rw [wb_lo_eq w addr v h1 h2, Option.map_some', Option.some_bind,
    rb_lo_eq ((w.ramUpdate 0 (addr - 0xc000) v).write_svbk c) addr h1 h2,
    write_svbk_ram, ramUpdate_hit w 0 (addr - 0xc000) v]

/-- Witness for `fixed_region_independence` at the fixed-half address
`0xC800`, byte 5, control value `0xFF`. -/
theorem fixed_region_independence_witness :
    ((Wram.new.wb 0xC800 5).map (fun w2 => w2.write_svbk 0xFF)).bind
      (fun w3 => w3.rb 0xC800) = some 5 ∧
    ∀ u : Wram, (u.write_svbk 0xFF).ram = u.ram :=
  fixed_region_independence Wram.new 0xC800 5 0xFF (by decide) (by decide)

/-- Claim C10: under the reachable-state invariant, the bank index and
byte offset resolved by `rb`/`wb` are always in bounds, the address
subtractions cannot underflow, and neither operation can panic. -/
theorem no_panic (w : Wram) (addr value : Nat)
    (h1 : 0xc000 ≤ addr) (h2 : addr < 0xe000)
    (hb1 : 1 ≤ w.selected_bank) (hb7 : w.selected_bank ≤ 7) :
    ((if addr < 0xd000 then 0 else w.selected_bank) < 8) ∧
    ((if addr < 0xd000 then addr - 0xc000 else addr - 0xd000) < 0x1000) ∧
    (if addr < 0xd000 then 0xc000 ≤ addr else 0xd000 ≤ addr) ∧
    (w.rb addr).isSome = true ∧
    (w.wb addr value).isSome = true := by
  have hb : w.selected_bank < 8 := by omega
  refine ⟨?_, ?_, ?_, ?_, ?_⟩
  · split <;> omega
  · split <;> omega
  · split <;> omega
  · by_cases hd : addr < 0xd000
    · rw [rb_lo_eq w addr h1 hd]
      rfl
    · rw [rb_hi_eq w addr (by omega) h2 hb]
      rfl
  · by_cases hd : addr < 0xd000
    · rw [wb_lo_eq w addr value h1 hd]
      rfl
    · rw [wb_hi_eq w addr value (by omega) h2 hb]
      rfl

/-- Witness for `no_panic` on the fresh ram at address `0xDFFF`. -/
theorem no_panic_witness :
    ((if 0xDFFF < 0xd000 then 0 else Wram.new.selected_bank) < 8) ∧
    ((if 0xDFFF < 0xd000 then 0xDFFF - 0xc000 else 0xDFFF - 0xd000) < 0x1000) ∧
    (if 0xDFFF < 0xd000 then 0xc000 ≤ 0xDFFF else 0xd000 ≤ 0xDFFF) ∧
    (Wram.new.rb 0xDFFF).isSome = true ∧
    (Wram.new.wb 0xDFFF 0).isSome = true :=
  no_panic Wram.new 0xDFFF 0 (by decide) (by decide) (by decide) (by decide)

end Gameboy
